import Mathlib

/-!
Verification of the TuneWhisperer transcription pipeline.

Shallow embedding of the segmentation, splitting, translation, caching and
time-parsing code of the repository (app/services/elevenlabs_service.py,
app/services/whisper_service.py, app/api/transcribe.py,
app/services/audio_service.py).  Python floats are modelled as exact
rationals (ℚ); Python dicts with fixed key sets are modelled as structures;
functions that may raise are modelled with Option/Except.
-/

namespace TuneWhisperer

/-! ## Python string primitives -/

/-- Whitespace characters recognised by Python's `str.strip()` / `\s`
(ASCII fragment: space, tab, newline, carriage return, vertical tab,
form feed). -/
def isPySpace (c : Char) : Bool :=
  c = ' ' ∨ c = '\t' ∨ c = '\n' ∨ c = '\r' ∨ c = '\x0b' ∨ c = '\x0c'

/-- ASCII decimal digit (models Python `str.isdigit` on ASCII input). -/
def isPyDigit (c : Char) : Bool :=
  '0' ≤ c ∧ c ≤ '9'

/-- Strip whitespace from both ends of a character list. -/
def stripChars (cs : List Char) : List Char :=
  ((cs.dropWhile isPySpace).reverse.dropWhile isPySpace).reverse

/-- Python `str.strip()`. -/
def pyStrip (s : String) : String :=
  String.mk (stripChars s.toList)

/-- Python `str.lower()` (ASCII fragment). -/
def pyLower (s : String) : String :=
  String.mk (s.toList.map Char.toLower)

/-- Python `str.split()` with no separator: split on runs of whitespace,
discarding empty pieces. -/
def pySplitWs (cs : List Char) : List (List Char) :=
  match cs with
  | [] => []
  | c :: rest =>
    if isPySpace c then
      pySplitWs rest
    else
      match pySplitWs rest with
      | [] => [[c]]
      | w :: ws =>
        match rest with
        | [] => [[c]]
        | r :: _ => if isPySpace r then [c] :: w :: ws else (c :: w) :: ws

/-- Python `" ".join(words)`. -/
def joinSpace (ws : List (List Char)) : List Char :=
  match ws with
  | [] => []
  | [w] => w
  | w :: rest => w ++ ' ' :: joinSpace rest

/-- Number of occurrences of a character in a string
(Python `str.count(c)` for a single-character argument). -/
def countChar (c : Char) (s : String) : Nat :=
  s.toList.countP (· = c)

/-! ## Data model

`Word` embeds the per-word dicts the ElevenLabs API returns
(`type`, `start`, `end`, `text`); `Segment` embeds the
`{"start", "end", "text"}` dicts produced by `_words_to_segments`.
`end` being a Lean keyword, the field is called `stop`. -/

structure Word where
  type : String
  start : ℚ
  stop : ℚ
  text : String
  deriving DecidableEq, Repr

structure Segment where
  start : ℚ
  stop : ℚ
  text : String
  deriving DecidableEq, Repr

/-! ## Segmenter (`ElevenLabsService._words_to_segments`, lines 120-207)

The accumulator `current_segment` is a dict with `start`/`end` initialised
to `None`; they are always written before being read, so they are modelled
as rationals initialised to 0.  The word dicts are kept as a list, as in
the source (only its length and emptiness are consumed). -/

structure CurrentSegment where
  start : ℚ
  stop : ℚ
  text : String
  words : List Word
  deriving DecidableEq, Repr

/-- The reset value `{"start": None, "end": None, "text": "", "words": []}`. -/
def emptyCurrent : CurrentSegment := ⟨0, 0, "", []⟩

def segmentMaxDuration : ℚ := 8
def segmentMaxWords : Nat := 25
def segmentMaxChars : Nat := 120

/-- `is_sentence_end`: the word text, stripped, ends with `.`, `?` or `!`. -/
def isSentenceEnd (wordText : String) : Bool :=
  match (pyStrip wordText).toList.getLast? with
  | some c => c = '.' ∨ c = '?' ∨ c = '!'
  | none => false

/-- The four split criteria of `_words_to_segments`, evaluated in source
order (`if`/`elif` chain) on the accumulator after the word was appended.
Note that the duration test is strict (`>`), by lines 170 and 179. -/
def shouldSplit (cur : CurrentSegment) (wordText : String) : Bool :=
  let segmentDuration := cur.stop - cur.start
  if isSentenceEnd wordText ∧ cur.words.length ≥ 4 then true
  else if cur.words.length ≥ segmentMaxWords then true
  else if cur.text.length ≥ segmentMaxChars then true
  else if segmentDuration > segmentMaxDuration then true
  else false

/-- The `for word in words` loop body of `_words_to_segments`:
skip non-word records, initialise a fresh accumulator (with no split
check), or append and split when a criterion fires. -/
def wordsLoop : List Word → CurrentSegment → List Segment →
    List Segment × CurrentSegment
  | [], cur, segs => (segs, cur)
  | w :: rest, cur, segs =>
    if w.type ≠ "word" then
      wordsLoop rest cur segs
    else if cur.words = [] then
      wordsLoop rest ⟨w.start, w.stop, w.text, [w]⟩ segs
    else if shouldSplit
        ⟨cur.start, w.stop, cur.text ++ " " ++ w.text, cur.words ++ [w]⟩
        w.text then
      wordsLoop rest emptyCurrent
        (segs ++ [⟨cur.start, w.stop, pyStrip (cur.text ++ " " ++ w.text)⟩])
    else
      wordsLoop rest
        ⟨cur.start, w.stop, cur.text ++ " " ++ w.text, cur.words ++ [w]⟩ segs

/-- `_words_to_segments` up to (and excluding) the
`_split_very_long_segments` post-pass: the accumulation loop plus the
final flush of a non-empty accumulator. -/
def accumulateSegments (words : List Word) : List Segment :=
  if words = [] then []
  else
    let (segs, cur) := wordsLoop words emptyCurrent []
    if cur.words = [] then segs
    else segs ++ [⟨cur.start, cur.stop, pyStrip cur.text⟩]

/-! ## Oversized-segment post-pass
(`_split_very_long_segments`, `_split_by_punctuation`,
`_split_by_secondary_punctuation`, lines 209-322) -/

/-- `re.sub(r'([.!?])([^\s])', r'\1 \2', text)`: insert a space after a
terminal punctuation mark directly followed by a non-whitespace
character.  Matches are non-overlapping and left-to-right, so both
matched characters are consumed. -/
def insertSpaceAfterPunct : List Char → List Char
  | c1 :: c2 :: rest =>
    if (c1 = '.' ∨ c1 = '!' ∨ c1 = '?') ∧ ¬ isPySpace c2 then
      c1 :: ' ' :: c2 :: insertSpaceAfterPunct rest
    else
      c1 :: insertSpaceAfterPunct (c2 :: rest)
  | l => l

/-- `re.split(r'[.!?]\s+', text)`: pieces between non-overlapping
occurrences of a terminal punctuation mark followed by a maximal run of
whitespace.  `acc` holds the current piece reversed; `skip` is true while
the whitespace run of the delimiter just matched is being consumed. -/
def splitPrimaryGo (acc : List Char) (skip : Bool) (cs : List Char) :
    List (List Char) :=
  match cs with
  | [] => [acc.reverse]
  | c :: rest =>
    if skip && isPySpace c then
      splitPrimaryGo acc true rest
    else if (c = '.' || c = '!' || c = '?') &&
        (match rest with | r :: _ => isPySpace r | [] => false) then
      acc.reverse :: splitPrimaryGo [] true rest
    else
      splitPrimaryGo (c :: acc) false rest

/-- `_split_by_punctuation`. -/
def splitByPunctuation (text : String) : List String :=
  let t := insertSpaceAfterPunct text.toList
  let raw := splitPrimaryGo [] false t
  (raw.map (fun cs => String.mk (stripChars cs))).filter (· ≠ "")

/-- `re.split(r'[,;:]\s*', text)`: every comma/semicolon/colon is a
delimiter, consuming any following run of whitespace (`skip` as above). -/
def splitSecondaryGo (acc : List Char) (skip : Bool) (cs : List Char) :
    List (List Char) :=
  match cs with
  | [] => [acc.reverse]
  | c :: rest =>
    if skip && isPySpace c then
      splitSecondaryGo acc true rest
    else if c = ',' || c = ';' || c = ':' then
      acc.reverse :: splitSecondaryGo [] true rest
    else
      splitSecondaryGo (c :: acc) false rest

/-- The greedy ≤60-character word-wrap loop inside
`_split_by_secondary_punctuation` (lines 305-318). -/
def wrapLoop (ws : List (List Char)) (cur : List (List Char)) (curLen : Nat) :
    List (List Char) :=
  match ws with
  | [] => if cur = [] then [] else [joinSpace cur]
  | w :: rest =>
    if curLen + w.length + 1 > 60 ∧ cur ≠ [] then
      joinSpace cur :: wrapLoop rest [w] w.length
    else
      wrapLoop rest (cur ++ [w]) (curLen + w.length + 1)

/-- `_split_by_secondary_punctuation`. -/
def splitBySecondaryPunctuation (text : String) : List String :=
  let raw := splitSecondaryGo [] false text.toList
  raw.flatMap (fun cs =>
    let seg := stripChars cs
    if seg = [] then []
    else if seg.length > 60 then
      (wrapLoop (pySplitWs seg) [] 0).map String.mk
    else
      [String.mk seg])

/-- Round to the nearest integer, ties to even (Python `round`). -/
def roundHalfEven (q : ℚ) : ℤ :=
  let f := ⌊q⌋
  let r := q - f
  if r < 1/2 then f
  else if 1/2 < r then f + 1
  else if f % 2 = 0 then f else f + 1

/-- Python `round(x, 2)` on the exact-rational model of floats. -/
def round2 (q : ℚ) : ℚ :=
  (roundHalfEven (q * 100) : ℚ) / 100

/-- The proportional time-distribution loop of `_split_very_long_segments`
(lines 229-241 and 249-261), before the two-decimal rounding applied at
emission: starting at time `t`, each stripped non-empty piece `s` gets the
duration `(len s / total) * dur` and the running time advances exactly by
it (the Python loop keeps `current_time` unrounded). -/
def proportionalPiecesRaw (t dur : ℚ) (total : Nat) :
    List String → List (ℚ × ℚ × String)
  | [] => []
  | s :: rest =>
    if pyStrip s = "" then proportionalPiecesRaw t dur total rest
    else
      (t, t + (((pyStrip s).length : ℚ) / total) * dur, pyStrip s) ::
        proportionalPiecesRaw (t + (((pyStrip s).length : ℚ) / total) * dur)
          dur total rest

/-- The emitted sub-segments: raw proportional times rounded to two
decimals (lines 236-240). -/
def proportionalPieces (t dur : ℚ) (total : Nat) (pieces : List String) :
    List Segment :=
  (proportionalPiecesRaw t dur total pieces).map fun e => ⟨round2 e.1, round2 e.2.1, e.2.2⟩

def maxTextLength : Nat := 160

/-- The per-segment body of `_split_very_long_segments`: keep short
segments; otherwise try the primary split, then the secondary split, and
keep the segment as-is when both yield at most one piece. -/
def splitOneSegment (seg : Segment) : List Segment :=
  if seg.text.length ≤ maxTextLength then [seg]
  else if (splitByPunctuation seg.text).length > 1 then
    proportionalPieces seg.start (seg.stop - seg.start) seg.text.length
      (splitByPunctuation seg.text)
  else if (splitBySecondaryPunctuation seg.text).length > 1 then
    proportionalPieces seg.start (seg.stop - seg.start) seg.text.length
      (splitBySecondaryPunctuation seg.text)
  else
    [seg]

/-- `_split_very_long_segments`. -/
def splitVeryLongSegments (segs : List Segment) : List Segment :=
  segs.flatMap splitOneSegment

/-- `_words_to_segments`: accumulation loop followed by the oversized
post-pass. -/
def wordsToSegments (words : List Word) : List Segment :=
  splitVeryLongSegments (accumulateSegments words)

/-! ## The Segmenter as the spec states it (for claim C1)

The spec phrases the Segmenter as: append each incoming spoken word to
the current accumulator, then evaluate the four split conditions in fixed
priority order, first-true-wins, where condition 4 fires at
`end − start ≥ 8.0`.  The machine below follows those words; the duration
comparison and whether the conditions are evaluated after the word that
opens a fresh accumulator are parameters, so the claim's reading and the
corrected reading are instances of the same definition. -/

structure ClaimAcc where
  start : ℚ
  stop : ℚ
  text : String
  count : Nat
  deriving DecidableEq, Repr

/-- Append a spoken word to the accumulator (a fresh accumulator starts
at the word). -/
def claimAppend (acc : Option ClaimAcc) (w : Word) : ClaimAcc :=
  match acc with
  | none => ⟨w.start, w.stop, w.text, 1⟩
  | some a => ⟨a.start, w.stop, a.text ++ " " ++ w.text, a.count + 1⟩

/-- The four split conditions in the spec's priority order, first-true
wins; the duration comparison is a parameter. -/
def claimConditions (durSplit : ℚ → Bool) (a : ClaimAcc) (wordText : String) :
    Bool :=
  if isSentenceEnd wordText ∧ a.count ≥ 4 then true
  else if a.count ≥ segmentMaxWords then true
  else if a.text.length ≥ segmentMaxChars then true
  else durSplit (a.stop - a.start)

/-- The spec-phrased accumulation machine.  `checkFresh` tells whether the
split conditions are also evaluated right after a word opens a fresh
accumulator (the claim's literal reading evaluates them after every
append). -/
def claimLoop (durSplit : ℚ → Bool) (checkFresh : Bool) :
    List Word → Option ClaimAcc → List Segment → List Segment
  | [], acc, segs =>
    segs ++ (match acc with
      | none => []
      | some a => [⟨a.start, a.stop, pyStrip a.text⟩])
  | w :: rest, acc, segs =>
    if w.type ≠ "word" then claimLoop durSplit checkFresh rest acc segs
    else if (checkFresh || !acc.isNone) &&
        claimConditions durSplit (claimAppend acc w) w.text then
      claimLoop durSplit checkFresh rest none
        (segs ++ [⟨(claimAppend acc w).start, (claimAppend acc w).stop,
          pyStrip (claimAppend acc w).text⟩])
    else
      claimLoop durSplit checkFresh rest (some (claimAppend acc w)) segs

/-- Modelled from the spec: the Segmenter exactly as claim C1 states it
(split condition 4 fires at duration ≥ 8.0, and the conditions are
evaluated after every appended word). -/
def claimSegmenter (ws : List Word) : List Segment :=
  claimLoop (fun d => decide (d ≥ 8)) true ws none []

/-- The amended reading: condition 4 requires the duration to strictly
exceed 8.0, and no conditions are evaluated after the word that opens a
fresh accumulator. -/
def amendedSegmenter (ws : List Word) : List Segment :=
  claimLoop (fun d => decide (d > 8)) false ws none []

/-! ## Translation (whisper_service.py lines 134-264,
elevenlabs_service.py lines 456-578)

The external `GoogleTranslator.translate` call is modelled as a function
`tr : String → Option String`; `none` models a raised exception. -/

/-- A segment as it flows through translation and the API layer:
the `{"start", "end", "text"}` dict with an optional
`"translated_text"` key. -/
structure RespSegment where
  start : ℚ
  stop : ℚ
  text : String
  translated_text : Option String
  deriving DecidableEq, Repr

/-- The supported-language set shared verbatim by
`WhisperService._is_valid_language_code` and
`ElevenLabsService._is_valid_language_code` (a Python set literal; the
duplicated entries `sq` and `bg` of the source collapse). -/
def supportedLanguages : List String :=
  ["pt", "en", "es", "fr", "de", "it", "ja", "ko", "zh", "ru",
   "ar", "hi", "th", "vi", "tr", "pl", "nl", "sv", "no", "da",
   "fi", "cs", "sk", "hu", "ro", "bg", "hr", "sl", "et", "lv",
   "lt", "mt", "ga", "cy", "eu", "ca", "gl", "is", "mk", "sq",
   "sr", "bs", "me", "uz", "kk", "ky", "tg", "mn", "my", "km",
   "lo", "ka", "am", "ne", "si", "bn", "gu", "ta", "te", "kn",
   "ml", "ur", "fa", "ps", "sw", "zu", "af", "sq", "be", "bg"]

/-- `_is_valid_language_code` (identical in both services). -/
def isValidLanguageCode (language_code : String) : Bool :=
  pyLower language_code ∈ supportedLanguages

/-- The per-segment body of `WhisperService._translate_batch_sync`
(lines 224-235): translate the stripped text; on a raised exception the
fallback is that stripped text. -/
def translateSegSyncW (tr : String → Option String) (seg : RespSegment) :
    RespSegment :=
  let text := pyStrip seg.text
  if text ≠ "" then
    match tr text with
    | some t => { seg with translated_text := some t }
    | none => { seg with translated_text := some text }
  else
    { seg with translated_text := some text }

/-- The per-segment body of `ElevenLabsService._translate_batch_sync`
(lines 537-549): translate the stripped text; on a raised exception the
fallback is the segment's unstripped `text`. -/
def translateSegSyncE (tr : String → Option String) (seg : RespSegment) :
    RespSegment :=
  let original := pyStrip seg.text
  if original ≠ "" then
    match tr original with
    | some t => { seg with translated_text := some t }
    | none => { seg with translated_text := some seg.text }
  else
    { seg with translated_text := some original }

/-- `WhisperService._translate_batch_sync`: the batch loop mutates each
segment in place and returns the same list. -/
def translateBatchSyncW (tr : String → Option String)
    (segs : List RespSegment) : List RespSegment :=
  segs.map (translateSegSyncW tr)

/-- `ElevenLabsService._translate_batch_sync`. -/
def translateBatchSyncE (tr : String → Option String)
    (segs : List RespSegment) : List RespSegment :=
  segs.map (translateSegSyncE tr)

/-- The batch partition of `_translate_segments_batch`:
`for i in range(0, len(segments), 10): batch = segments[i:i+10]`
(`range(0, n, 10)` has `(n + 9) / 10` elements). -/
def chunks10 {α : Type} (l : List α) : List (List α) :=
  (List.range ((l.length + 9) / 10)).map (fun i => (l.drop (10 * i)).take 10)

/-- `WhisperService._translate_segments_batch`: each batch is dispatched
to `_translate_batch_sync` and the per-batch results are concatenated in
original batch order. -/
def translateSegmentsBatchW (tr : String → Option String)
    (segs : List RespSegment) : List RespSegment :=
  ((chunks10 segs).map (translateBatchSyncW tr)).flatten

/-- `ElevenLabsService._translate_segments_batch`. -/
def translateSegmentsBatchE (tr : String → Option String)
    (segs : List RespSegment) : List RespSegment :=
  ((chunks10 segs).map (translateBatchSyncE tr)).flatten

/-- The transcription-result dict shared by both services and the cache.
Keys read through `.get` with a default are `Option`-valued. -/
structure TransResult where
  language : String
  language_probability : Option ℚ
  segments : List RespSegment
  file_duration : Option ℚ
  text : String
  provider : Option String
  translated_to : Option String
  deriving DecidableEq, Repr

/-- `WhisperService._translate_segments` (lines 134-174): no-op when the
target code is unsupported or equals the detected source language;
otherwise translate in batches and set `translated_to`. -/
def whisperTranslateSegments (tr : String → Option String)
    (res : TransResult) (target : String) : TransResult :=
  if ¬ isValidLanguageCode target then res
  else if res.language = target then res
  else
    { res with
      segments := translateSegmentsBatchW tr res.segments
      translated_to := some target }

/-- `ElevenLabsService._translate_segments` (lines 456-486): no-op only
when the target code is unsupported or the segment list is empty; the
detected source language is never compared to the target. -/
def elevenTranslateSegments (tr : String → Option String)
    (res : TransResult) (target : String) : TransResult :=
  if ¬ isValidLanguageCode target then res
  else if res.segments = [] then res
  else
    { res with
      segments := translateSegmentsBatchE tr res.segments
      translated_to := some (pyLower target) }

/-! ## POSIX path helpers (`os.path` fragment used by transcribe.py) -/

/-- Index just after the last `/` of the path (0 when there is none),
i.e. Python `p.rfind('/') + 1`. -/
def lastSlashIdx (cs : List Char) : Nat :=
  match cs.reverse.findIdx? (· = '/') with
  | some j => cs.length - j
  | none => 0

/-- `os.path.dirname` (posixpath): everything before the last `/`,
with trailing slashes stripped unless the head is all slashes. -/
def posixDirname (p : String) : String :=
  let cs := p.toList
  let head := cs.take (lastSlashIdx cs)
  if head ≠ [] ∧ ¬ head.all (· = '/') then
    String.mk (((head.reverse).dropWhile (· = '/')).reverse)
  else
    String.mk head

/-- `os.path.join` (posixpath) for two components. -/
def posixJoin (a b : String) : String :=
  if b.toList.head? = some '/' then b
  else if a = "" ∨ a.toList.getLast? = some '/' then a ++ b
  else a ++ "/" ++ b

/-- The extension part of `os.path.splitext` (posixpath): from the last
dot of the basename, provided a non-dot character precedes it inside the
basename. -/
def splitextExt (p : String) : String :=
  let cs := p.toList
  let base := cs.drop (lastSlashIdx cs)
  let leading := (base.takeWhile (· = '.')).length
  match base.reverse.findIdx? (· = '.') with
  | some j =>
    let idx := base.length - 1 - j
    if idx ≥ leading then String.mk (base.drop idx) else ""
  | none => ""

/-! ## Transcription endpoint (app/api/transcribe.py) -/

/-- `_get_transcription_cache_path` (lines 39-50): the key path is the
directory of the audio file plus a name built from provider, model and
(if truthy) the target language. -/
def getTranscriptionCachePath (file_path provider model : String)
    (translate_to : Option String) : String :=
  let base_dir := posixDirname file_path
  let cache_name := "transcription_" ++ provider ++ "_" ++ model ++
    (match translate_to with
     | some t => if t = "" then "" else "_" ++ t
     | none => "") ++ ".json"
  posixJoin base_dir cache_name

def validExtensions : List String := [".mp3", ".wav", ".m4a", ".flac", ".ogg"]

/-- The request body of `POST /transcribe`. -/
structure TranscribeRequest where
  file_path : String
  translate_to : Option String
  model : Option String
  force_language : Option String
  provider : Option String
  use_cache : Bool
  deriving DecidableEq, Repr

/-- The response model (`TranscribeResponse`); its segment entries have
the same shape as `RespSegment`. -/
structure TranscribeResponse where
  language : String
  language_probability : Option ℚ
  translated_to : Option String
  segments : List RespSegment
  file_duration : ℚ
  provider : String
  cached : Bool
  deriving DecidableEq, Repr

/-- Provider and model validation (transcribe.py lines 97-121), with
Python's falsy-`or` defaulting of empty strings. -/
def resolveProviderModel (provider model : Option String) :
    Except Nat (String × String) :=
  let prov := match provider with
    | none => "whisper"
    | some p => if p = "" then "whisper" else p
  if prov ≠ "whisper" ∧ prov ≠ "elevenlabs" then .error 400
  else if prov = "whisper" then
    let m := match model with
      | none => "base"
      | some s => if s = "" then "base" else s
    if m ∈ ["tiny", "base", "small", "medium", "large"] then .ok (prov, m)
    else .error 400
  else
    let m := match model with
      | none => "scribe_v1"
      | some s => if s = "" then "scribe_v1" else s
    if m ∈ ["scribe_v1", "scribe_v1_experimental"] then .ok (prov, m)
    else .error 400

/-- The environment the endpoint runs against: path resolution, the file
system, the persisted cache (`none` models a missing or unreadable
entry; a present entry is the non-empty JSON document an earlier
successful request stored, hence truthy), and what each provider adapter
would produce for this request (`none` models a raised error or a `None`
result). -/
structure TranscribeEnv where
  abspath : String → String
  pathExists : String → Bool
  cacheLoad : String → Option TransResult
  whisperResult : Option TransResult
  elevenCtorOk : Bool
  elevenKeyValid : Bool
  elevenResult : Option TransResult

/-- What one call to the endpoint did: the HTTP-level response (error
status or response body), whether a provider adapter was invoked, and the
cache write it performed. -/
structure TranscribeOutcome where
  response : Except Nat TranscribeResponse
  providerInvoked : Bool
  cacheWrite : Option (String × TransResult)
  deriving Repr

/-- Building the response from a cache hit (transcribe.py lines 133-152):
field defaults follow the `.get` calls of the source. -/
def mkResponseFromCache (r : TransResult) (provider : String) :
    TranscribeResponse :=
  { language := r.language
    language_probability := r.language_probability
    translated_to := r.translated_to
    segments := r.segments
    file_duration := r.file_duration.getD 0
    provider := r.provider.getD provider
    cached := true }

/-- Building the response from a fresh result (lines 181-209). -/
def mkResponseFresh (r : TransResult) (provider : String) :
    TranscribeResponse :=
  { mkResponseFromCache r provider with cached := false }

/-- `transcribe_audio` (transcribe.py lines 64-214): validation, the
`use_cache`-gated cache read, provider dispatch, and the unconditional
cache write on a successful fresh computation. -/
def transcribeAudio (env : TranscribeEnv) (req : TranscribeRequest) :
    TranscribeOutcome :=
  let absPath := env.abspath req.file_path
  if ¬ env.pathExists absPath then ⟨.error 404, false, none⟩
  else if pyLower (splitextExt absPath) ∉ validExtensions then
    ⟨.error 400, false, none⟩
  else
    match resolveProviderModel req.provider req.model with
    | .error s => ⟨.error s, false, none⟩
    | .ok (prov, m) =>
      let cKey := getTranscriptionCachePath absPath prov m req.translate_to
      match (if req.use_cache then env.cacheLoad cKey else none) with
      | some r => ⟨.ok (mkResponseFromCache r prov), false, none⟩
      | none =>
        if prov = "elevenlabs" then
          if ¬ env.elevenCtorOk then ⟨.error 500, false, none⟩
          else if ¬ env.elevenKeyValid then ⟨.error 400, false, none⟩
          else
            match env.elevenResult with
            | none => ⟨.error 500, true, none⟩
            | some r => ⟨.ok (mkResponseFresh r prov), true, some (cKey, r)⟩
        else
          match env.whisperResult with
          | none => ⟨.error 500, true, none⟩
          | some r => ⟨.ok (mkResponseFresh r prov), true, some (cKey, r)⟩

/-! ## Trim time parsing (app/services/audio_service.py lines 146-180) -/

/-- Numeric value of a digit list, most significant first. -/
def digitsVal (ds : List Char) : Nat :=
  ds.foldl (fun n c => n * 10 + (c.toNat - '0'.toNat)) 0

/-- Modelled from CPython `float()`: after stripping whitespace and an
optional sign, the literals `"inf"`, `"infinity"` and `"nan"` (in any
letter case) parse successfully to non-finite floats.  For
`_time_to_seconds` such strings are therefore PARSEABLE (they never
reach the `except` handler and the function returns the non-finite
value, not `0.0`); their values lie outside the exact-rational model
below, so every theorem that relies on a failed parse excludes them
with this predicate. -/
def isInfNanLiteral (s : String) : Bool :=
  let cs := stripChars s.toList
  let ds := if cs.head? = some '+' ∨ cs.head? = some '-' then cs.tail else cs
  let w := String.mk (ds.map Char.toLower)
  w = "inf" ∨ w = "infinity" ∨ w = "nan"

/-- Python `float()` on the exact-rational model, for finite decimal and
scientific literals with an optional sign.  `none` models a raised
`ValueError`.  Strings accepted by Python as non-finite floats
(`isInfNanLiteral`) and underscore-grouped digits are outside this
model; theorems relying on a failed parse exclude them by hypothesis. -/
def pyFloatCore (cs : List Char) : Option ℚ :=
  let sgn : ℚ := if cs.head? = some '-' then -1 else 1
  let cs1 := if cs.head? = some '+' ∨ cs.head? = some '-' then cs.tail else cs
  let ip := cs1.takeWhile isPyDigit
  let rest1 := cs1.dropWhile isPyDigit
  let fp := if rest1.head? = some '.' then rest1.tail.takeWhile isPyDigit else []
  let rest2 :=
    if rest1.head? = some '.' then rest1.tail.dropWhile isPyDigit else rest1
  if ip = [] ∧ fp = [] then none
  else
    let mant : ℚ :=
      (digitsVal ip : ℚ) + (digitsVal fp : ℚ) / ((10 : ℚ) ^ fp.length)
    if rest2 = [] then some (sgn * mant)
    else if rest2.head? = some 'e' ∨ rest2.head? = some 'E' then
      let r := rest2.tail
      let esgn : ℤ := if r.head? = some '-' then -1 else 1
      let r2 := if r.head? = some '+' ∨ r.head? = some '-' then r.tail else r
      let ed := r2.takeWhile isPyDigit
      let tail := r2.dropWhile isPyDigit
      if ed = [] ∨ tail ≠ [] then none
      else some (sgn * mant * (10 : ℚ) ^ (esgn * (digitsVal ed : ℤ)))
    else none

def pyFloat? (s : String) : Option ℚ :=
  pyFloatCore (stripChars s.toList)

/-- Python `int()` (decimal, optional sign and surrounding whitespace). -/
def pyInt? (s : String) : Option ℤ :=
  let cs := stripChars s.toList
  let sgn : ℤ := if cs.head? = some '-' then -1 else 1
  let ds := if cs.head? = some '+' ∨ cs.head? = some '-' then cs.tail else cs
  if ds ≠ [] ∧ ds.all isPyDigit then some (sgn * (digitsVal ds : ℤ))
  else none

/-- Python `str.isdigit` (ASCII model): non-empty and all digits. -/
def pyIsdigit (s : String) : Bool :=
  s ≠ "" ∧ s.toList.all isPyDigit

/-- Python `str.split(':')` (separator kept, empty pieces preserved);
`acc` holds the current piece reversed. -/
def splitColonGo (acc : List Char) : List Char → List (List Char)
  | [] => [acc.reverse]
  | c :: rest =>
    if c = ':' then acc.reverse :: splitColonGo [] rest
    else splitColonGo (c :: acc) rest

def pySplitColon (s : String) : List String :=
  (splitColonGo [] s.toList).map String.mk

/-- The `try` body of `_time_to_seconds`; `none` models a raised
exception anywhere inside it. -/
def timeToSecondsBody (time_str : String) : Option ℚ :=
  if pyIsdigit time_str ∨
      (countChar '.' time_str = 1 ∧
        pyIsdigit (String.mk (time_str.toList.filter (· ≠ '.')))) then
    pyFloat? time_str
  else
    match pySplitColon time_str with
    | [p] => pyFloat? p
    | [mp, sp] => do
      let m ← pyInt? mp
      let s ← pyFloat? sp
      pure ((m : ℚ) * 60 + s)
    | [hp, mp, sp] => do
      let h ← pyInt? hp
      let mi ← pyInt? mp
      let s ← pyFloat? sp
      pure ((h : ℚ) * 3600 + (mi : ℚ) * 60 + s)
    | _ => none

/-- `_time_to_seconds`: the `except` handler turns every failure into
`0.0`. -/
def timeToSeconds (time_str : String) : ℚ :=
  (timeToSecondsBody time_str).getD 0

/-- The time validation of `trim_audio` (lines 30-36): parse both bounds,
reject (the service returns `None`) when `start_seconds >= end_seconds`,
otherwise proceed with this pair as the cut interval. -/
def trimTimes (start_time end_time : String) : Option (ℚ × ℚ) :=
  let start_seconds := timeToSeconds start_time
  let end_seconds := timeToSeconds end_time
  if start_seconds ≥ end_seconds then none
  else some (start_seconds, end_seconds)

/-! # Theorems -/

/-- Final flush of the accumulation loop, as performed at
`_words_to_segments` lines 196-201. -/
def finishLoop (r : List Segment × CurrentSegment) : List Segment :=
  if r.2.words = [] then r.1
  else r.1 ++ [⟨r.2.start, r.2.stop, pyStrip r.2.text⟩]

theorem accumulateSegments_eq_finish (ws : List Word) :
    accumulateSegments ws =
      if ws = [] then [] else finishLoop (wordsLoop ws emptyCurrent []) := by
  unfold accumulateSegments finishLoop
  rcases h : wordsLoop ws emptyCurrent [] with ⟨segs, cur⟩
  simp

theorem shouldSplit_eq_claimConditions (cur : CurrentSegment) (wt : String) :
    shouldSplit cur wt =
      claimConditions (fun d => decide (d > 8))
        ⟨cur.start, cur.stop, cur.text, cur.words.length⟩ wt := by
  unfold shouldSplit claimConditions segmentMaxDuration
  by_cases h1 : isSentenceEnd wt = true ∧ cur.words.length ≥ 4
  · simp [h1]
  · simp only [if_neg h1]
    by_cases h2 : cur.words.length ≥ segmentMaxWords
    · simp [h2]
    · simp only [if_neg h2]
      by_cases h3 : cur.text.length ≥ segmentMaxChars
      · simp [h3]
      · simp only [if_neg h3]
        by_cases h4 : cur.stop - cur.start > 8
        · simp [h4]
        · simp [h4]

theorem wordsLoop_sim (durStrict : ℚ → Bool)
    (hdur : durStrict = fun d => decide (d > 8)) (ws : List Word) :
    ∀ (cur : CurrentSegment) (acc : Option ClaimAcc) (segs : List Segment),
      ((cur = emptyCurrent ∧ acc = none) ∨
        (cur.words ≠ [] ∧
          acc = some ⟨cur.start, cur.stop, cur.text, cur.words.length⟩)) →
      finishLoop (wordsLoop ws cur segs) = claimLoop durStrict false ws acc segs := by
  subst hdur
  induction ws with
  | nil =>
    intro cur acc segs h
    rcases h with ⟨hc, ha⟩ | ⟨hc, ha⟩
    · subst hc; subst ha
      simp [wordsLoop, claimLoop, finishLoop, emptyCurrent]
    · subst ha
      simp [wordsLoop, claimLoop, finishLoop, hc]
  | cons w rest ih =>
    intro cur acc segs h
    rw [wordsLoop, claimLoop]
    by_cases hw : w.type = "word"
    case neg =>
      rw [if_pos hw, if_pos hw]
      exact ih _ _ _ h
    case pos =>
      have hng : ¬ (w.type ≠ "word") := not_not_intro hw
      rw [if_neg hng, if_neg hng]
      rcases h with ⟨hc, ha⟩ | ⟨hc, ha⟩
      · subst hc; subst ha
        rw [if_pos (show emptyCurrent.words = [] from rfl)]
        rw [if_neg (show ¬ ((false || !(none : Option ClaimAcc).isNone) &&
          claimConditions (fun d => decide (d > 8)) (claimAppend none w) w.text)
            = true by simp)]
        exact ih _ _ _ (Or.inr (by simp [claimAppend, emptyCurrent]))
      · subst ha
        rw [if_neg hc]
        have hcond :
            ((false ||
              !(some (ClaimAcc.mk cur.start cur.stop cur.text
                cur.words.length)).isNone) &&
              claimConditions (fun d => decide (d > 8))
                (claimAppend
                  (some (ClaimAcc.mk cur.start cur.stop cur.text
                    cur.words.length)) w) w.text) =
            shouldSplit
              ⟨cur.start, w.stop, cur.text ++ " " ++ w.text, cur.words ++ [w]⟩
              w.text := by
          rw [shouldSplit_eq_claimConditions]
          simp [claimAppend]
        rw [hcond]
        by_cases hs :
            shouldSplit
              ⟨cur.start, w.stop, cur.text ++ " " ++ w.text, cur.words ++ [w]⟩
              w.text = true
        · rw [if_pos hs, if_pos hs]
          simpa [claimAppend] using ih _ _ _ (Or.inl ⟨rfl, rfl⟩)
        · rw [if_neg hs, if_neg hs]
          exact ih _ _ _ (Or.inr (by simp [claimAppend]))

set_option maxRecDepth 100000 in
/-- C1, counterexample: the Segmenter does not follow the claim's rules.
First input: three words whose first two span exactly 8.0 seconds — the
claim's condition 4 (`≥ 8.0`) closes the segment after the second word,
but the code (strict `>` at elevenlabs_service.py line 179) does not, so
the code returns one three-word segment where the claim's rules return
two segments.  Second input: a 120-character first word — the claim
evaluates the character condition right after the append and closes a
one-word segment, but the code skips the condition check for the word
that opens a fresh accumulator (`continue` at line 157) and returns one
two-word segment. -/
theorem C1_counterexample :
    accumulateSegments
        [⟨"word", 0, 1/10, "a"⟩, ⟨"word", 79/10, 8, "b"⟩,
         ⟨"word", 81/10, 41/5, "c"⟩] ≠
      claimSegmenter
        [⟨"word", 0, 1/10, "a"⟩, ⟨"word", 79/10, 8, "b"⟩,
         ⟨"word", 81/10, 41/5, "c"⟩] ∧
    accumulateSegments
        [⟨"word", 0, 1/2, String.mk (List.replicate 120 'a')⟩,
         ⟨"word", 3/5, 7/10, "y"⟩] ≠
      claimSegmenter
        [⟨"word", 0, 1/2, String.mk (List.replicate 120 'a')⟩,
         ⟨"word", 3/5, 7/10, "y"⟩] := by
  constructor <;> with_unfolding_all decide

/-- C1, amended: the Segmenter appends each incoming spoken word to the
accumulator (updating `end` and `text`) and evaluates the four split
conditions in the claim's fixed priority order with first-true-wins —
except that no conditions are evaluated after the word that opens a
fresh accumulator, and condition 4 fires only when the accumulated
duration strictly exceeds 8.0 seconds; on a true condition the
accumulator (including the triggering word) is emitted and the next word
starts a fresh accumulator. -/
theorem C1_segmenter_amended (ws : List Word) :
    accumulateSegments ws = amendedSegmenter ws := by
  rw [accumulateSegments_eq_finish]
  by_cases h : ws = []
  · subst h; simp [amendedSegmenter, claimLoop]
  · rw [if_neg h]
    exact wordsLoop_sim _ rfl ws emptyCurrent none [] (Or.inl ⟨rfl, rfl⟩)

set_option maxRecDepth 400000 in
/-- C3, counterexample: for the oversized segment `"a"*80 ++ ". " ++
"b"*80` (162 characters) with duration 8.1 seconds, the primary split
yields two 80-character pieces whose proportional durations are
`80/162 * 8.1 = 4.0` each; their sum is `8.0`, not the parent duration
`8.1` — the `". "` separator dropped by the split loses its time share,
and the 0.1-second deficit exceeds any two-decimal rounding slack. -/
theorem C3_counterexample :
    ((splitVeryLongSegments
        [⟨0, 81/10,
          String.mk (List.replicate 80 'a' ++ '.' :: ' ' :: List.replicate 80 'b')⟩]).map
      (fun s => s.stop - s.start)).sum = 8 ∧
    (81 : ℚ)/10 - 0 = 81/10 ∧
    ¬ |(8 : ℚ) - 81/10| ≤ 2/100 := by
  refine ⟨by with_unfolding_all decide, by norm_num, ?_⟩
  rw [abs_le]
  norm_num

/-- C3, amended: each sub-piece's duration is
`(piece length / parent text length) * parent duration`, and the pieces'
durations sum to `(total piece characters / parent characters) * parent
duration`; this equals the parent's duration only when the split discards
no characters — separators and trimmed whitespace dropped between pieces
lose their time share, so the sum generally falls short of the parent
duration. -/
theorem C3_proportional_split_durations (t dur : ℚ) (total : Nat)
    (pieces : List String) :
    (∀ e ∈ proportionalPiecesRaw t dur total pieces,
        e.2.1 - e.1 = ((e.2.2.length : ℚ) / total) * dur) ∧
    ((proportionalPiecesRaw t dur total pieces).map (fun e => e.2.1 - e.1)).sum =
      (((pieces.map pyStrip).filter (· ≠ "")).map
        (fun s => (s.length : ℚ))).sum / total * dur := by
  induction pieces generalizing t with
  | nil => simp [proportionalPiecesRaw]
  | cons s rest ih =>
    by_cases hs : pyStrip s = ""
    · obtain ⟨ihA, ihB⟩ := ih t
      refine ⟨?_, ?_⟩
      · intro e he
        rw [proportionalPiecesRaw, if_pos hs] at he
        exact ihA e he
      · rw [proportionalPiecesRaw, if_pos hs, ihB]
        simp [hs]
    · obtain ⟨ihA, ihB⟩ :=
        ih (t + (((pyStrip s).length : ℚ) / total) * dur)
      refine ⟨?_, ?_⟩
      · intro e he
        rw [proportionalPiecesRaw, if_neg hs] at he
        rcases List.mem_cons.mp he with he | he
        · subst he; ring
        · exact ihA e he
      · rw [proportionalPiecesRaw, if_neg hs]
        have hfil : ((s :: rest).map pyStrip).filter (· ≠ "") =
            pyStrip s :: ((rest.map pyStrip).filter (· ≠ "")) := by
          rw [List.map_cons]
          exact List.filter_cons_of_pos (by simp [hs])
        rw [List.map_cons, List.sum_cons, ihB, hfil, List.map_cons,
          List.sum_cons]
        ring

/-- C3, witness: instantiating the amended theorem at parent duration 2,
parent length 4 and pieces `["ab", "cd"]` — the first emitted piece is
`(0, 1, "ab")` and its duration is `(2/4) * 2 = 1`. -/
theorem C3_witness :
    ((0 : ℚ), (1 : ℚ), "ab") ∈ proportionalPiecesRaw 0 2 4 ["ab", "cd"] ∧
    ((1 : ℚ) - 0 = ((("ab" : String).length : ℚ) / 4) * 2) :=
  ⟨by with_unfolding_all decide,
   (C3_proportional_split_durations 0 2 4 ["ab", "cd"]).1 (0, 1, "ab")
     (by with_unfolding_all decide)⟩

set_option maxRecDepth 400000 in
/-- C5, counterexample: a 161-character single-word segment is over the
hard cap (160) and over ~80 characters, has no punctuation (primary and
secondary splitting both yield exactly one piece), yet the post-pass
returns it unchanged — no forced word-boundary midpoint split happens,
contradicting the claim that such a segment is always split. -/
theorem C5_counterexample :
    splitVeryLongSegments [⟨0, 1, String.mk (List.replicate 161 'a')⟩] =
      [⟨0, 1, String.mk (List.replicate 161 'a')⟩] ∧
    (String.mk (List.replicate 161 'a')).length = 161 ∧
    (splitByPunctuation (String.mk (List.replicate 161 'a'))).length = 1 ∧
    (splitBySecondaryPunctuation (String.mk (List.replicate 161 'a'))).length
      = 1 := by
  with_unfolding_all decide

/-- C5, amended: when splitting an emitted segment's text on primary
punctuation and on secondary punctuation (the latter including its
greedy ≤60-character word-wrap) each yield at most one piece, the
post-pass keeps the segment unchanged; the midpoint word-boundary probe
of `_smart_text_split` is never reached from the segment pipeline
(`_refine_segments_semantically`, its only caller, is itself never
called), so an over-cap segment both splitters leave whole stays
unsplit. -/
theorem C5_amended_unsplit_passthrough (seg : Segment)
    (h1 : (splitByPunctuation seg.text).length ≤ 1)
    (h2 : (splitBySecondaryPunctuation seg.text).length ≤ 1) :
    splitVeryLongSegments [seg] = [seg] := by
  rw [splitVeryLongSegments]
  simp only [List.flatMap_cons, List.flatMap_nil, List.append_nil]
  rw [splitOneSegment]
  by_cases hl : seg.text.length ≤ maxTextLength
  · rw [if_pos hl]
  · rw [if_neg hl, if_neg (by omega), if_neg (by omega)]

set_option maxRecDepth 400000 in
/-- C5, witness: the amended theorem applied to the 161-character
single-word segment. -/
theorem C5_amended_witness :
    (splitByPunctuation
        (String.mk (List.replicate 161 'a'))).length ≤ 1 ∧
    (splitBySecondaryPunctuation
        (String.mk (List.replicate 161 'a'))).length ≤ 1 ∧
    splitVeryLongSegments [⟨0, 1, String.mk (List.replicate 161 'a')⟩] =
      [⟨0, 1, String.mk (List.replicate 161 'a')⟩] :=
  ⟨by with_unfolding_all decide,
   by with_unfolding_all decide,
   C5_amended_unsplit_passthrough ⟨0, 1, String.mk (List.replicate 161 'a')⟩
     (by with_unfolding_all decide) (by with_unfolding_all decide)⟩

/-- C2: when `use_cache` is true and the cache key already holds a
persisted entry, the endpoint answers `cached = true` with the stored
segments, performs no cache write, and no provider adapter is invoked. -/
theorem C2_cache_hit_short_circuit (env : TranscribeEnv)
    (req : TranscribeRequest) (prov m : String) (r : TransResult)
    (hexists : env.pathExists (env.abspath req.file_path) = true)
    (hext : pyLower (splitextExt (env.abspath req.file_path)) ∈ validExtensions)
    (hpm : resolveProviderModel req.provider req.model = .ok (prov, m))
    (hcache : req.use_cache = true)
    (hhit : env.cacheLoad (getTranscriptionCachePath (env.abspath req.file_path)
        prov m req.translate_to) = some r) :
    transcribeAudio env req =
      ⟨.ok (mkResponseFromCache r prov), false, none⟩ ∧
    (mkResponseFromCache r prov).cached = true ∧
    (mkResponseFromCache r prov).segments = r.segments := by
  refine ⟨?_, rfl, rfl⟩
  simp only [transcribeAudio, hexists, hext, hpm, hcache, hhit,
    Bool.not_true, not_true_eq_false, if_false, if_true, ite_true, ite_false]

/-- C2, witness: a concrete environment whose cache holds an entry for
the key of `/d/a.mp3` with the default whisper/base parameters. -/
theorem C2_witness :
    (fun (_ : String) => true) ((fun (p : String) => p) "/d/a.mp3") = true ∧
    pyLower (splitextExt ((fun (p : String) => p) "/d/a.mp3")) ∈
      validExtensions ∧
    resolveProviderModel none none = .ok ("whisper", "base") ∧
    transcribeAudio
        ⟨fun p => p, fun _ => true,
          fun _ => some ⟨"en", none, [⟨0, 1, "hi", none⟩], some 1, "hi",
            some "whisper", none⟩,
          none, false, false, none⟩
        ⟨"/d/a.mp3", none, none, none, none, true⟩ =
      ⟨.ok (mkResponseFromCache
        ⟨"en", none, [⟨0, 1, "hi", none⟩], some 1, "hi", some "whisper", none⟩
        "whisper"), false, none⟩ :=
  ⟨rfl, by with_unfolding_all decide, rfl,
   (C2_cache_hit_short_circuit
      ⟨fun p => p, fun _ => true,
        fun _ => some ⟨"en", none, [⟨0, 1, "hi", none⟩], some 1, "hi",
          some "whisper", none⟩,
        none, false, false, none⟩
      ⟨"/d/a.mp3", none, none, none, none, true⟩ "whisper" "base"
      ⟨"en", none, [⟨0, 1, "hi", none⟩], some 1, "hi", some "whisper", none⟩
      rfl (by with_unfolding_all decide) rfl rfl rfl).1⟩

/-- C6, counterexample: two distinct audio files in the same directory
produce the same cache key — the key uses only `os.path.dirname` of the
resolved path, so an identical key does not imply the same source
artifact. -/
theorem C6_counterexample :
    getTranscriptionCachePath "/downloads/a.mp3" "whisper" "base" none =
      getTranscriptionCachePath "/downloads/b.mp3" "whisper" "base" none ∧
    ("/downloads/a.mp3" : String) ≠ "/downloads/b.mp3" := by
  with_unfolding_all decide

/-- C6, amended: the cache key is deterministic, but it is derived from
the DIRECTORY of the resolved source path plus provider id, model id and
target language — any two resolved paths with the same directory produce
the same key, so distinct artifacts stored in one directory collide. -/
theorem C6_key_depends_only_on_directory (p q prov m : String)
    (tl : Option String) (h : posixDirname p = posixDirname q) :
    getTranscriptionCachePath p prov m tl =
      getTranscriptionCachePath q prov m tl := by
  unfold getTranscriptionCachePath
  rw [h]

/-- C6, witness: the amended theorem applied to the two colliding paths
of the counterexample. -/
theorem C6_witness :
    posixDirname "/downloads/a.mp3" = posixDirname "/downloads/b.mp3" ∧
    getTranscriptionCachePath "/downloads/a.mp3" "whisper" "base"
        (some "pt") =
      getTranscriptionCachePath "/downloads/b.mp3" "whisper" "base"
        (some "pt") :=
  ⟨by with_unfolding_all decide,
   C6_key_depends_only_on_directory "/downloads/a.mp3" "/downloads/b.mp3"
     "whisper" "base" (some "pt") (by with_unfolding_all decide)⟩

/-- C7, counterexample: under the ElevenLabs variant, a target language
equal to the detected source language ("en", which is in the supported
set) is NOT a no-op — `_translate_segments` never compares the target to
the source, so it translates and sets `translated_to`. -/
theorem C7_counterexample :
    isValidLanguageCode "en" = true ∧
    (TransResult.mk "en" none [⟨0, 1, "hi", none⟩] none "hi"
        (some "elevenlabs") none).language = "en" ∧
    (TransResult.mk "en" none [⟨0, 1, "hi", none⟩] none "hi"
        (some "elevenlabs") none).translated_to = none ∧
    (elevenTranslateSegments (fun s => some s)
        (TransResult.mk "en" none [⟨0, 1, "hi", none⟩] none "hi"
          (some "elevenlabs") none) "en").translated_to = some "en" := by
  with_unfolding_all decide

/-- C7, amended: translation is a no-op (result returned unchanged,
`translated_to` left unset) for the Whisper variant whenever the target
is unsupported or equals the detected source language; for the
ElevenLabs variant only the unsupported-target condition gives a no-op —
a supported target equal to the source is still translated. -/
theorem C7_translation_noop_amended (tr : String → Option String)
    (res : TransResult) (target : String)
    (h : isValidLanguageCode target = false ∨ res.language = target) :
    whisperTranslateSegments tr res target = res ∧
    (isValidLanguageCode target = false →
      elevenTranslateSegments tr res target = res) := by
  constructor
  · rcases h with h | h
    · simp [whisperTranslateSegments, h]
    · by_cases hv : isValidLanguageCode target <;>
        simp [whisperTranslateSegments, hv, h]
  · intro h2
    simp [elevenTranslateSegments, h2]

/-- C7, witness: the amended theorem applied to the unsupported target
"qq" for both variants. -/
theorem C7_witness :
    isValidLanguageCode "qq" = false ∧
    whisperTranslateSegments (fun _ => none)
        (TransResult.mk "en" none [⟨0, 1, "hi", none⟩] none "hi"
          (some "whisper") none) "qq" =
      TransResult.mk "en" none [⟨0, 1, "hi", none⟩] none "hi"
        (some "whisper") none ∧
    elevenTranslateSegments (fun _ => none)
        (TransResult.mk "en" none [⟨0, 1, "hi", none⟩] none "hi"
          (some "whisper") none) "qq" =
      TransResult.mk "en" none [⟨0, 1, "hi", none⟩] none "hi"
        (some "whisper") none :=
  ⟨by with_unfolding_all decide,
   (C7_translation_noop_amended (fun _ => none)
      (TransResult.mk "en" none [⟨0, 1, "hi", none⟩] none "hi"
        (some "whisper") none) "qq"
      (Or.inl (by with_unfolding_all decide))).1,
   (C7_translation_noop_amended (fun _ => none)
      (TransResult.mk "en" none [⟨0, 1, "hi", none⟩] none "hi"
        (some "whisper") none) "qq"
      (Or.inl (by with_unfolding_all decide))).2
     (by with_unfolding_all decide)⟩

/-- C9: every successful non-cached computation (validations pass, the
cache read either is disabled or misses, the chosen provider yields a
result) writes the result to the cache path — the `use_cache` flag gates
only the read, so `use_cache = false` (the left disjunct of `hmiss`)
still creates or overwrites the persisted entry for the key. -/
theorem C9_cache_write_unconditional (env : TranscribeEnv)
    (req : TranscribeRequest) (prov m : String) (r : TransResult)
    (hexists : env.pathExists (env.abspath req.file_path) = true)
    (hext : pyLower (splitextExt (env.abspath req.file_path)) ∈ validExtensions)
    (hpm : resolveProviderModel req.provider req.model = .ok (prov, m))
    (hmiss : req.use_cache = false ∨
      env.cacheLoad (getTranscriptionCachePath (env.abspath req.file_path)
        prov m req.translate_to) = none)
    (hprovider : (if prov = "elevenlabs" then env.elevenResult
      else env.whisperResult) = some r)
    (helev : prov = "elevenlabs" →
      env.elevenCtorOk = true ∧ env.elevenKeyValid = true) :
    (transcribeAudio env req).cacheWrite =
      some (getTranscriptionCachePath (env.abspath req.file_path) prov m
        req.translate_to, r) ∧
    (transcribeAudio env req).response = .ok (mkResponseFresh r prov) ∧
    (mkResponseFresh r prov).cached = false := by
  have hc : (if req.use_cache then
      env.cacheLoad (getTranscriptionCachePath (env.abspath req.file_path)
        prov m req.translate_to) else none) = none := by
    rcases hmiss with h | h
    · simp [h]
    · simp [h]
  by_cases hp : prov = "elevenlabs"
  · obtain ⟨h1, h2⟩ := helev hp
    rw [if_pos hp] at hprovider
    subst hp
    refine ⟨?_, ?_, rfl⟩ <;>
      simp [transcribeAudio, hexists, hext, hpm, hc, h1, h2, hprovider]
  · rw [if_neg hp] at hprovider
    refine ⟨?_, ?_, rfl⟩ <;>
      simp [transcribeAudio, hexists, hext, hpm, hc, hp, hprovider]

/-- C9, witness: a request with `use_cache = false` against an
environment whose whisper adapter succeeds — the cache entry for the key
is still written. -/
theorem C9_witness :
    (TranscribeRequest.mk "/d/a.mp3" none none none none false).use_cache
      = false ∧
    (transcribeAudio
        ⟨fun p => p, fun _ => true, fun _ => none,
          some ⟨"en", none, [⟨0, 1, "hi", none⟩], some 1, "hi",
            some "whisper", none⟩,
          false, false, none⟩
        ⟨"/d/a.mp3", none, none, none, none, false⟩).cacheWrite =
      some (getTranscriptionCachePath "/d/a.mp3" "whisper" "base" none,
        ⟨"en", none, [⟨0, 1, "hi", none⟩], some 1, "hi",
          some "whisper", none⟩) :=
  ⟨rfl,
   (C9_cache_write_unconditional
      ⟨fun p => p, fun _ => true, fun _ => none,
        some ⟨"en", none, [⟨0, 1, "hi", none⟩], some 1, "hi",
          some "whisper", none⟩,
        false, false, none⟩
      ⟨"/d/a.mp3", none, none, none, none, false⟩ "whisper" "base"
      ⟨"en", none, [⟨0, 1, "hi", none⟩], some 1, "hi", some "whisper", none⟩
      rfl (by with_unfolding_all decide) rfl (Or.inl rfl) rfl
      (fun h => absurd h (by decide))).1⟩

theorem chunks10_cons {α : Type} (l : List α) (h : l ≠ []) :
    chunks10 l = l.take 10 :: chunks10 (l.drop 10) := by
  have hn : 1 ≤ l.length := List.length_pos.mpr h
  unfold chunks10
  have h1 : (l.length + 9) / 10 = (l.length - 1) / 10 + 1 := by omega
  have h2 : ((l.drop 10).length + 9) / 10 = (l.length - 1) / 10 := by
    simp only [List.length_drop]
    omega
  rw [h1, h2, List.range_succ_eq_map, List.map_cons, List.map_map]
  refine congrArg₂ _ (by simp) ?_
  refine List.map_congr_left ?_
  intro i _
  simp only [Function.comp_apply, List.drop_drop]
  congr 2
  omega

theorem chunks10_flatten {α : Type} (l : List α) : (chunks10 l).flatten = l := by
  by_cases h : l = []
  · subst h; simp [chunks10]
  · rw [chunks10_cons l h, List.flatten_cons, chunks10_flatten (l.drop 10),
      List.take_append_drop]
termination_by l.length
decreasing_by
  simp only [List.length_drop]
  have := List.length_pos.mpr h
  omega

theorem chunks10_map {α β : Type} (f : α → β) (l : List α) :
    chunks10 (l.map f) = (chunks10 l).map (List.map f) := by
  unfold chunks10
  rw [List.length_map, List.map_map]
  refine List.map_congr_left ?_
  intro i _
  simp [Function.comp_apply, List.map_take, List.map_drop]

theorem translateSegmentsBatchW_eq_map (tr : String → Option String)
    (segs : List RespSegment) :
    translateSegmentsBatchW tr segs = segs.map (translateSegSyncW tr) := by
  show ((chunks10 segs).map (List.map (translateSegSyncW tr))).flatten =
    segs.map (translateSegSyncW tr)
  rw [← chunks10_map, chunks10_flatten]

/-- C8: the whisper translation batcher partitions the segment list into
consecutive order-preserving batches of ten, and its output is exactly
the per-segment translation applied in place: same length, same order,
and batch `i`'s results occupy exactly the index range
`[10*i, 10*i + (batch i).length)` of the output. -/
theorem C8_batcher_preserves_order (tr : String → Option String)
    (segs : List RespSegment) :
    translateSegmentsBatchW tr segs = segs.map (translateSegSyncW tr) ∧
    (translateSegmentsBatchW tr segs).length = segs.length ∧
    (chunks10 segs).flatten = segs ∧
    ∀ i b, (chunks10 segs)[i]? = some b →
      b = (segs.drop (10 * i)).take 10 ∧
      ∀ j, j < b.length →
        (translateSegmentsBatchW tr segs)[10 * i + j]? =
          (translateBatchSyncW tr b)[j]? := by
  have hmap := translateSegmentsBatchW_eq_map tr segs
  refine ⟨hmap, by rw [hmap, List.length_map], chunks10_flatten segs, ?_⟩
  intro i b hb
  have hik : i < (segs.length + 9) / 10 := by
    by_contra hik
    rw [chunks10, List.getElem?_map,
      List.getElem?_eq_none (by simpa using Nat.le_of_not_lt hik)] at hb
    simp at hb
  have hb' : b = (segs.drop (10 * i)).take 10 := by
    rw [chunks10, List.getElem?_map, List.getElem?_range hik] at hb
    simpa using hb.symm
  refine ⟨hb', ?_⟩
  intro j hj
  have hj10 : j < 10 := by
    rw [hb', List.length_take] at hj
    omega
  rw [hmap, List.getElem?_map]
  show _ = (List.map (translateSegSyncW tr) b)[j]?
  rw [List.getElem?_map, hb', List.getElem?_take, if_pos hj10,
    List.getElem?_drop]

/-- C8, witness: the theorem applied to a twelve-segment list at batch
index 1 (the slice `[10, 12)`) and offset 0 — output index 10 is the
first element of batch 1's translation. -/
theorem C8_witness :
    (chunks10 (List.replicate 12 (RespSegment.mk 0 0 "s" none)))[1]? =
      some (((List.replicate 12 (RespSegment.mk 0 0 "s" none)).drop 10).take
        10) ∧
    (translateSegmentsBatchW (fun s => some s)
        (List.replicate 12 (RespSegment.mk 0 0 "s" none)))[10 * 1 + 0]? =
      (translateBatchSyncW (fun s => some s)
        (((List.replicate 12 (RespSegment.mk 0 0 "s" none)).drop 10).take
          10))[0]? := by
  have h := C8_batcher_preserves_order (fun s => some s)
    (List.replicate 12 (RespSegment.mk 0 0 "s" none))
  have hb := h.2.2.2 1
    (((List.replicate 12 (RespSegment.mk 0 0 "s" none)).drop 10).take 10)
    (by with_unfolding_all decide)
  exact ⟨by with_unfolding_all decide, hb.2 0 (by with_unfolding_all decide)⟩

theorem translateSegSyncE_fields (tr : String → Option String)
    (seg : RespSegment) :
    (translateSegSyncE tr seg).start = seg.start ∧
    (translateSegSyncE tr seg).stop = seg.stop ∧
    (translateSegSyncE tr seg).text = seg.text ∧
    (translateSegSyncE tr seg).translated_text ≠ none := by
  unfold translateSegSyncE
  by_cases h : pyStrip seg.text ≠ ""
  · rw [if_pos h]
    cases htr : tr (pyStrip seg.text) <;> simp
  · rw [if_neg h]
    simp

theorem translateSegSyncW_fields (tr : String → Option String)
    (seg : RespSegment) :
    (translateSegSyncW tr seg).start = seg.start ∧
    (translateSegSyncW tr seg).stop = seg.stop ∧
    (translateSegSyncW tr seg).text = seg.text ∧
    (translateSegSyncW tr seg).translated_text ≠ none := by
  unfold translateSegSyncW
  by_cases h : pyStrip seg.text ≠ ""
  · rw [if_pos h]
    cases htr : tr (pyStrip seg.text) <;> simp
  · rw [if_neg h]
    simp

theorem translateSegSyncE_fallback (tr : String → Option String)
    (seg : RespSegment) (h1 : pyStrip seg.text ≠ "")
    (h2 : tr (pyStrip seg.text) = none) :
    (translateSegSyncE tr seg).translated_text = some seg.text := by
  unfold translateSegSyncE
  rw [if_pos h1, h2]

theorem translateSegSyncW_fallback (tr : String → Option String)
    (seg : RespSegment) (h : pyStrip seg.text = seg.text)
    (h2 : tr seg.text = none) :
    (translateSegSyncW tr seg).translated_text = some seg.text := by
  unfold translateSegSyncW
  rw [h]
  by_cases he : seg.text ≠ ""
  · rw [if_pos he, h2]
  · rw [if_neg he]

/-- C4: in both providers' `_translate_batch_sync`, every segment is
processed (same length, element `i` of the output is the translation of
element `i` of the input), a processed segment keeps its `start`/`end`/
`text` and always gets a non-null `translated_text`, and when the
translation call fails (`tr` returns `none`) the segment's
`translated_text` falls back to its original `text` (for the Whisper
variant the original text is whitespace-stripped first, which is the
identity on the already-stripped texts the pipeline produces). -/
theorem C4_per_segment_translation_fallback (tr : String → Option String)
    (segs : List RespSegment) (i : Nat) (seg : RespSegment)
    (hseg : segs[i]? = some seg) :
    (translateBatchSyncE tr segs).length = segs.length ∧
    (translateBatchSyncW tr segs).length = segs.length ∧
    (translateBatchSyncE tr segs)[i]? = some (translateSegSyncE tr seg) ∧
    (translateBatchSyncW tr segs)[i]? = some (translateSegSyncW tr seg) ∧
    (translateSegSyncE tr seg).start = seg.start ∧
    (translateSegSyncE tr seg).stop = seg.stop ∧
    (translateSegSyncE tr seg).text = seg.text ∧
    (translateSegSyncE tr seg).translated_text ≠ none ∧
    (translateSegSyncW tr seg).translated_text ≠ none ∧
    (pyStrip seg.text ≠ "" → tr (pyStrip seg.text) = none →
      (translateSegSyncE tr seg).translated_text = some seg.text) ∧
    (pyStrip seg.text = seg.text → tr seg.text = none →
      (translateSegSyncW tr seg).translated_text = some seg.text) := by
  obtain ⟨he1, he2, he3, he4⟩ := translateSegSyncE_fields tr seg
  obtain ⟨hw1, hw2, hw3, hw4⟩ := translateSegSyncW_fields tr seg
  exact ⟨by simp [translateBatchSyncE], by simp [translateBatchSyncW],
    by simp [translateBatchSyncE, List.getElem?_map, hseg],
    by simp [translateBatchSyncW, List.getElem?_map, hseg],
    he1, he2, he3, he4, hw4,
    translateSegSyncE_fallback tr seg,
    translateSegSyncW_fallback tr seg⟩

/-- C4, witness: the theorem applied to a failing translator on the
segment list `[(0, 1, "hi")]` — both variants fall back to the original
text. -/
theorem C4_witness :
    ([RespSegment.mk 0 1 "hi" none] : List RespSegment)[0]? =
      some (RespSegment.mk 0 1 "hi" none) ∧
    pyStrip "hi" ≠ "" ∧
    (translateSegSyncE (fun _ => none)
        (RespSegment.mk 0 1 "hi" none)).translated_text = some "hi" ∧
    (translateSegSyncW (fun _ => none)
        (RespSegment.mk 0 1 "hi" none)).translated_text = some "hi" := by
  have h := C4_per_segment_translation_fallback (fun _ => none)
    [RespSegment.mk 0 1 "hi" none] 0 (RespSegment.mk 0 1 "hi" none)
    (by with_unfolding_all decide)
  refine ⟨by with_unfolding_all decide, by with_unfolding_all decide, ?_, ?_⟩
  · exact h.2.2.2.2.2.2.2.2.2.1 (by with_unfolding_all decide) rfl
  · exact h.2.2.2.2.2.2.2.2.2.2 (by with_unfolding_all decide) rfl

theorem splitColonGo_length (cs : List Char) :
    ∀ acc, (splitColonGo acc cs).length = cs.countP (· = ':') + 1 := by
  induction cs with
  | nil => intro acc; simp [splitColonGo]
  | cons c rest ih =>
    intro acc
    by_cases h : c = ':'
    · simp [splitColonGo, h, ih, List.countP_cons]
    · simp [splitColonGo, h, ih, List.countP_cons]

theorem splitColonGo_of_no_colon (cs : List Char) (h : ∀ c ∈ cs, c ≠ ':') :
    ∀ acc, splitColonGo acc cs = [acc.reverse ++ cs] := by
  induction cs with
  | nil => intro acc; simp [splitColonGo]
  | cons c rest ih =>
    intro acc
    rw [splitColonGo, if_neg (h c (by simp))]
    rw [ih (fun x hx => h x (by simp [hx]))]
    simp

theorem stripChars_sublist (cs : List Char) :
    List.Sublist (stripChars cs) cs := by
  unfold stripChars
  have h1 : List.Sublist (cs.dropWhile isPySpace) cs :=
    List.dropWhile_sublist _
  have h2 : List.Sublist
      ((cs.dropWhile isPySpace).reverse.dropWhile isPySpace)
      (cs.dropWhile isPySpace).reverse :=
    List.dropWhile_sublist _
  have h3 := h2.reverse
  simp only [List.reverse_reverse] at h3
  exact h3.trans h1

/-- C10: the trimmer's time parser returns `0.0` instead of raising on
input that fits none of the accepted forms — in particular on any string
with three or more `:` separators, and on any string made of characters
that are not digits, not `:` or `.`, and not sign characters (such as a
plain alphabetic string), provided it is not one of the inf/nan literals
that Python `float()` does accept — those are parseable seconds for this
parser (it returns the non-finite value, not `0.0`), so they are not
unparseable input and are excluded by the `isInfNanLiteral` hypothesis;
consequently `trim_audio` with an unparseable start time and a parseable
positive end time proceeds with the cut interval `(0, end_seconds)`
instead of rejecting the request. -/
theorem C10_time_parser_zero_fallback :
    (∀ s : String, 3 ≤ countChar ':' s → timeToSeconds s = 0) ∧
    (∀ s : String,
      (∀ c ∈ s.toList, isPyDigit c = false ∧ c ≠ ':' ∧ c ≠ '.' ∧
        c ≠ '+' ∧ c ≠ '-') →
      isInfNanLiteral s = false →
      timeToSeconds s = 0) ∧
    (∀ st et : String, timeToSeconds st = 0 → 0 < timeToSeconds et →
      trimTimes st et = some (0, timeToSeconds et)) := by
  refine ⟨?_, ?_, ?_⟩
  · intro s h3
    have hcol : ':' ∈ s.toList := by
      have hpos : 0 < s.toList.countP (· = ':') := by
        have : countChar ':' s = s.toList.countP (· = ':') := rfl
        omega
      obtain ⟨c, hc, hceq⟩ := List.countP_pos_iff.mp hpos
      have : c = ':' := by simpa using hceq
      rwa [this] at hc
    have hnd : pyIsdigit s = false := by
      simp only [pyIsdigit]
      simp
      intro _
      exact ⟨':', hcol, by decide⟩
    have hndf : pyIsdigit (String.mk (s.toList.filter (· ≠ '.'))) = false := by
      simp only [pyIsdigit]
      simp
      intro _
      exact ⟨':', hcol, by decide, by decide⟩
    have hlen : 4 ≤ (pySplitColon s).length := by
      have : (pySplitColon s).length = s.toList.countP (· = ':') + 1 := by
        simp [pySplitColon, splitColonGo_length]
      have hcc : countChar ':' s = s.toList.countP (· = ':') := rfl
      omega
    have hcond : ¬ (pyIsdigit s = true ∨
        (countChar '.' s = 1 ∧
          pyIsdigit (String.mk (s.toList.filter (· ≠ '.'))) = true)) := by
      rintro (h | ⟨h1, h2⟩)
      · rw [hnd] at h; cases h
      · rw [hndf] at h2; cases h2
    rw [timeToSeconds, timeToSecondsBody, if_neg hcond]
    rcases hps : pySplitColon s with _ | ⟨a, tl⟩
    · rw [hps] at hlen; simp at hlen
    · rcases tl with _ | ⟨b, tl2⟩
      · rw [hps] at hlen; simp at hlen
      · rcases tl2 with _ | ⟨c, tl3⟩
        · rw [hps] at hlen; simp at hlen
        · rcases tl3 with _ | ⟨d, rest⟩
          · rw [hps] at hlen; simp at hlen
          · rfl
  · intro s hch _hinf
    obtain ⟨data⟩ := s
    have htl : (String.mk data).toList = data := rfl
    rw [htl] at hch
    have hsub := stripChars_sublist data
    have hf : pyFloat? (String.mk data) = none := by
      rw [pyFloat?, htl]
      cases hsc : stripChars data with
      | nil => simp [pyFloatCore]
      | cons c r =>
        have hcmem : c ∈ data := (hsc ▸ hsub).mem (by simp)
        obtain ⟨hd, hcolon, hdot, hplus, hminus⟩ := hch c hcmem
        rw [pyFloatCore]
        simp [hplus, hminus, hdot, hd, List.takeWhile, List.dropWhile]
    have hnd : pyIsdigit (String.mk data) = false := by
      cases data with
      | nil => rfl
      | cons c r =>
        have := (hch c (by simp)).1
        simp [pyIsdigit, this]
    have hdots : countChar '.' (String.mk data) = 0 := by
      rw [countChar, htl]
      refine List.countP_eq_zero.mpr ?_
      intro c hc
      simpa using (hch c hc).2.2.1
    have hsplit : pySplitColon (String.mk data) = [String.mk data] := by
      rw [pySplitColon, htl,
        splitColonGo_of_no_colon data (fun c hc => (hch c hc).2.1)]
      simp
    have hcond : ¬ (pyIsdigit (String.mk data) = true ∨
        (countChar '.' (String.mk data) = 1 ∧
          pyIsdigit (String.mk ((String.mk data).toList.filter (· ≠ '.')))
            = true)) := by
      rintro (h | ⟨h1, h2⟩)
      · rw [hnd] at h; cases h
      · rw [hdots] at h1; cases h1
    rw [timeToSeconds, timeToSecondsBody, if_neg hcond, hsplit]
    simp [hf]
  · intro st et h0 hpos
    rw [trimTimes, h0]
    rw [if_neg (not_le.mpr hpos)]

/-- C10, witness: `"1:2:3:4"` (three separators) and `"abc"`
(non-numeric, and not an inf/nan literal) both parse to 0, and trimming
from `"abc"` to `"60"` proceeds with the interval `(0, 60)`. -/
theorem C10_witness :
    3 ≤ countChar ':' "1:2:3:4" ∧ timeToSeconds "1:2:3:4" = 0 ∧
    (∀ c ∈ "abc".toList, isPyDigit c = false ∧ c ≠ ':' ∧ c ≠ '.' ∧
      c ≠ '+' ∧ c ≠ '-') ∧
    isInfNanLiteral "abc" = false ∧
    timeToSeconds "abc" = 0 ∧
    0 < timeToSeconds "60" ∧
    trimTimes "abc" "60" = some (0, timeToSeconds "60") := by
  have h := C10_time_parser_zero_fallback
  exact ⟨by with_unfolding_all decide,
    h.1 "1:2:3:4" (by with_unfolding_all decide),
    by with_unfolding_all decide,
    by with_unfolding_all decide,
    h.2.1 "abc" (by with_unfolding_all decide) (by with_unfolding_all decide),
    by with_unfolding_all decide,
    h.2.2 "abc" "60"
      (h.2.1 "abc" (by with_unfolding_all decide)
        (by with_unfolding_all decide))
      (by with_unfolding_all decide)⟩

end TuneWhisperer
